import Mathlib

/-!
Verification of the freud order/pmft kernels:
`src/cpp/order/CubaticOrderParameter.cc` and `src/cpp/pmft/PMFXYZ.cc`.

Shallow embedding conventions:
* `float` arithmetic is modelled by exact rationals (`ℚ`); the annealer's
  score, which the C++ code compares with itself to detect NaN, is modelled
  by `SFloat` (a rational together with a NaN point) so that the code's
  `x != x` NaN test and the IEEE "NaN compares false" semantics are kept.
* The 81-element rank-4 tensors are total functions `Fin 81 → ℚ`, indexed
  exactly as the flat C buffers: entry `((i*3+j)*3+k)*3+l` holds the
  `(i,j,k,l)` component.
* The mt19937 draws and the trigonometric construction of random axes are
  not rational; the annealing loop is therefore parameterised by the stream
  of perturbation quaternions and uniform test draws it consumes, and by a
  function `fexp` standing for `expf`.  Every branch and assignment of the
  loop body is translated literally from the source.
-/

namespace Freud

/-- 3-vector of rationals, modelling freud's `vec3<float>`. -/
structure Vec3 where
  x : ℚ
  y : ℚ
  z : ℚ
deriving DecidableEq

/-- Quaternion `(w, x, y, z)`, modelling freud's `quat<float>`.
Modelled from the spec: §3 "Quat = (w,x,y,z) interpreted as unit rotation"
(`VectorMath.h` is not under `src/`). -/
structure Quat where
  w : ℚ
  x : ℚ
  y : ℚ
  z : ℚ
deriving DecidableEq

/-- The identity quaternion. -/
def idQuat : Quat := ⟨1, 0, 0, 0⟩

/-- Quaternion conjugate.  Modelled from the spec: §4.2 `conj(q)`
(`VectorMath.h` is not under `src/`). -/
def conj (q : Quat) : Quat := ⟨q.w, -q.x, -q.y, -q.z⟩

/-- Hamilton product of quaternions.  Modelled from the spec: §4.2
`mul(q1,q2)`, "standard Hamilton convention" (`VectorMath.h` is not under
`src/`). -/
def qmul (a b : Quat) : Quat :=
  ⟨a.w * b.w - a.x * b.x - a.y * b.y - a.z * b.z,
   a.w * b.x + a.x * b.w + a.y * b.z - a.z * b.y,
   a.w * b.y - a.x * b.z + a.y * b.w + a.z * b.x,
   a.w * b.z + a.x * b.y - a.y * b.x + a.z * b.w⟩

/-- Rotation of a vector by a quaternion: the vector part of `q·(0,v)·conj q`.
Modelled from the spec: §4.2 `rotate(q, v)`, "standard Hamilton convention"
(`VectorMath.h` is not under `src/`). -/
def rotate (q : Quat) (v : Vec3) : Vec3 :=
  let p := qmul (qmul q ⟨0, v.x, v.y, v.z⟩) (conj q)
  ⟨p.x, p.y, p.z⟩

/-! ### TensorOps: the 81-element rank-4 tensor primitives
(`CubaticOrderParameter.cc` lines 77-149). -/
/-- Flat 81-element rank-4 tensor, entry `((i*3+j)*3+k)*3+l`. -/
abbrev Tensor81 := Fin 81 → ℚ

/-- The all-zero tensor (`memset(..., 0, sizeof(float)*81)`). -/
def tZero : Tensor81 := fun _ => 0

/-- Component `0 ↦ x, 1 ↦ y, 2 ↦ z` of a vector (the local array `v[3]`
in `tensorProduct`). -/
def vcomp (v : Vec3) (i : ℕ) : ℚ :=
  if i = 0 then v.x else if i = 1 then v.y else v.z

/-- `tensorProduct` (lines 77-103): the quadruple loop writes
`tensor[((i*3+j)*3+k)*3+l] = v_i·v_j·v_k·v_l`; entry `n` therefore holds the
product of the components at the base-3 digits of `n`. -/
def tensorProduct (v : Vec3) : Tensor81 := fun n =>
  vcomp v (n.val / 27) * vcomp v (n.val / 9 % 3) *
    vcomp v (n.val / 3 % 3) * vcomp v (n.val % 3)

/-- `tensorMult` (lines 105-111): elementwise scalar multiply. -/
def tensorMult (t : Tensor81) (a : ℚ) : Tensor81 := fun n => t n * a

/-- `tensorAdd` (lines 133-140): elementwise sum. -/
def tensorAdd (a b : Tensor81) : Tensor81 := fun n => a n + b n

/-- `tensorSub` (lines 142-149): elementwise difference. -/
def tensorSub (a b : Tensor81) : Tensor81 := fun n => a n - b n

/-- `tensorDot` (lines 122-131): the 81-term accumulation loop. -/
def tensorDot (a b : Tensor81) : ℚ :=
  ((List.finRange 81).map (fun n => a n * b n)).sum

/-- The three world basis vectors `v[0..2]` / `system_vectors[0..2]`
(lines 316-318 and 385-387). -/
def basisVectors : List Vec3 := [⟨1, 0, 0⟩, ⟨0, 1, 0⟩, ⟨0, 0, 1⟩]

/-! ### CubaticTensorBuilder -/
/-- `CubaticOrderParameter::calcCubaticTensor` (lines 381-407): rotate the
three system vectors by `orientation`, accumulate their `tensorProduct`s
starting from the zeroed buffer, multiply by 2, subtract the generator. -/
def calcCubaticTensor (r4 : Tensor81) (orientation : Quat) : Tensor81 :=
  tensorSub
    (tensorMult
      (basisVectors.foldl
        (fun acc v => tensorAdd acc (tensorProduct (rotate orientation v)))
        tZero)
      2)
    r4

/-- Body of `ComputeParticleTensor::operator()` for one particle
(lines 322-343): `l_mbar` accumulates `tensorProduct(rotate(q, v[j]))` over
the three basis vectors (the loop computes `l_mbar := product + l_mbar`),
then is multiplied by 2.  No generator subtraction here. -/
def particleTensorRow (q : Quat) : Tensor81 :=
  tensorMult
    (basisVectors.foldl
      (fun acc v => tensorAdd (tensorProduct (rotate q v)) acc)
      tZero)
    2

/-- `ComputeGlobalTensor::operator()` (lines 363-379): for each tensor index,
sum the column over particles and multiply by `n_inv = 1/n`. -/
def computeGlobalTensor (rows : List Tensor81) : Tensor81 :=
  fun k => ((rows.map (fun r => r k)).sum) * (1 / (rows.length : ℚ))

/-- The tensor-assembly stage of `CubaticOrderParameter::compute`
(lines 485-513): per-particle rows, then the global mean, then `R4` is
subtracted from every particle row and from the global tensor in place.
Returns (global tensor, particle rows) as retained after the stage. -/
def assembleTensors (r4 : Tensor81) (qs : List Quat) : Tensor81 × List Tensor81 :=
  let rows := qs.map particleTensorRow
  let g := computeGlobalTensor rows
  (tensorSub g r4, rows.map (fun row => tensorSub row r4))

/-! ### Constructor validation -/
/-- The argument checks of `CubaticOrderParameter::CubaticOrderParameter`
(lines 26-51), translated guard by guard in source order.  Note both
comparisons are strict in the source. -/
def cubaticCtor (tInitial tFinal scale : ℚ) : Except String Unit :=
  if tInitial < tFinal then .error "t_initial must be greater than t_final"
  else if tFinal < 1 / 1000000 then .error "t_final must be > 1e-6"
  else if scale > 1 ∨ scale < 0 then .error "scale must be between 0 and 1"
  else .ok ()

/-- The argument checks of `PMFXYZ::PMFXYZ` (lines 29-53), translated guard
by guard in source order.  Note the step checks are `dx < 0`, not `≤`. -/
def pmfxyzCtor (lx ly lz : ℚ) (is2d : Bool)
    (maxX maxY maxZ dx dy dz : ℚ) : Except String Unit :=
  if dx < 0 then .error "dx must be positive"
  else if dy < 0 then .error "dy must be positive"
  else if dz < 0 then .error "dz must be positive"
  else if maxX < 0 then .error "max_x must be positive"
  else if maxY < 0 then .error "max_y must be positive"
  else if maxZ < 0 then .error "max_z must be positive"
  else if dx > maxX then .error "max_x must be greater than dx"
  else if dy > maxY then .error "max_y must be greater than dy"
  else if dz > maxZ then .error "max_z must be greater than dz"
  else if maxX > lx / 2 ∨ maxY > ly / 2 then
    .error "max_x, max_y must be smaller than half the smallest box size"
  else if maxZ > lz / 2 ∧ is2d = false then
    .error "max_z must be smaller than half the smallest box size"
  else .ok ()

/-- `m_nbins_a = int(2 * floorf(max_a / d_a))` (lines 55-59); the quantity
is nonnegative for valid arguments, so truncation agrees with the floor. -/
def nbinsOf (maxA dA : ℚ) : ℤ := 2 * ⌊maxA / dA⌋

/-! ### The annealer (`CubaticOrderParameter::compute`, lines 514-596)

The score is a `float` that the source compares with itself to detect NaN,
so scores are modelled by `SFloat`: a rational together with a NaN point.
All comparisons reproduce IEEE semantics: every ordered comparison against
NaN is false, and `x != x` holds exactly for NaN. -/
/-- A float-valued score: either a rational value or NaN. -/
inductive SFloat where
  | nan : SFloat
  | val : ℚ → SFloat
deriving DecidableEq

/-- IEEE `!=`: true when either side is NaN. -/
def sfNe : SFloat → SFloat → Bool
  | .val a, .val b => decide (a ≠ b)
  | _, _ => true

/-- IEEE `>`: false when either side is NaN. -/
def sfGt : SFloat → SFloat → Bool
  | .val a, .val b => decide (b < a)
  | _, _ => false

/-- IEEE `>=`: false when either side is NaN. -/
def sfGe : SFloat → SFloat → Bool
  | .val a, .val b => decide (b ≤ a)
  | _, _ => false

/-- `CubaticOrderParameter::calcCubaticOrderParameter` (lines 409-415):
`1 − ‖G − M‖²/‖M‖²` with the 81-element Frobenius inner product.  The
division degenerates in `float` when `‖M‖² = 0` (NaN/∞, the case the
caller's `x != x` test watches for); that degenerate case is modelled as
NaN, and otherwise the exact rational value is returned. -/
def calcCubaticOrderParameter (g m : Tensor81) : SFloat :=
  if tensorDot m m = 0 then SFloat.nan
  else SFloat.val (1 - tensorDot (tensorSub g m) (tensorSub g m) / tensorDot m m)

/-- The state retained by the annealer: `m_cubatic_orientation`,
`m_cubatic_tensor`, `m_cubatic_order_parameter`. -/
structure AnnealState where
  cubaticOrientation : Quat
  cubaticTensor : Tensor81
  cubaticOrderParameter : SFloat
deriving DecidableEq

instance {e a : Type _} [DecidableEq e] [DecidableEq a] :
    DecidableEq (Except e a) := fun x y => by
  cases x with
  | error v =>
    cases y with
    | error w => exact decidable_of_iff (v = w) (by simp)
    | ok w => exact .isFalse (by simp)
  | ok v =>
    cases y with
    | error w => exact .isFalse (by simp)
    | ok w => exact decidable_of_iff (v = w) (by simp)

/-- The Boltzmann factor `exp(-(s - s2)/t)` of lines 560-562 with float
NaN propagation: NaN when either score is NaN. -/
def sfBoltzmann (fexp : ℚ → ℚ) (s s2 : SFloat) (t : ℚ) : SFloat :=
  match s, s2 with
  | .val a, .val b => .val (fexp (-(a - b) / t))
  | _, _ => .nan

/-- One iteration of the annealing loop body (lines 535-572).  `perturb`
stands for `quat::fromAxisAngle(axis, 0.1*angle)` built from that
iteration's random draws (its trigonometry is not rational, so the
quaternion itself is the random input); `testValue` is the uniform draw
compared against the Boltzmann factor; `fexp` stands for `expf`.
Returns the updated retained state and whether the proposal was accepted
(`true` exactly on the two branches that commit), or the thrown
`runtime_error` when the candidate score is NaN. -/
def annealStep (fexp : ℚ → ℚ) (r4 g : Tensor81) (perturb : Quat)
    (testValue t : ℚ) (st : AnnealState) :
    Except String (AnnealState × Bool) :=
  let newOrientation := qmul perturb st.cubaticOrientation
  let newTensor := calcCubaticTensor r4 newOrientation
  let newScore := calcCubaticOrderParameter g newTensor
  if sfNe newScore newScore then .error "received negative value"
  else if sfGt newScore st.cubaticOrderParameter then
    .ok (⟨newOrientation, newTensor, newScore⟩, true)
  else
    let boltzmann : SFloat :=
      sfBoltzmann fexp st.cubaticOrderParameter newScore t
    if sfGe boltzmann (SFloat.val testValue) then
      .ok (⟨newOrientation, newTensor, newScore⟩, true)
    else .ok (st, false)

/-- The annealing `while` loop (lines 532-574): runs while
`t_current > t_final` and fewer than 10000 iterations have executed.
`fuel` is the number of iterations the cap still allows (the loop is
entered with `fuel = 10000`, `count = 0` and maintains
`count + fuel = 10000`); `stream k` yields iteration `k`'s perturbation
quaternion and uniform test draw.  On acceptance the temperature is
multiplied by `scale`; the `continue` of a rejected proposal skips that
multiplication.  Returns the final state and the executed iteration
count. -/
def annealLoop (fexp : ℚ → ℚ) (r4 g : Tensor81) (scale tFinal : ℚ)
    (stream : ℕ → Quat × ℚ) :
    ℕ → ℕ → ℚ → AnnealState → Except String (AnnealState × ℕ)
  | 0, count, _, st => .ok (st, count)
  | fuel + 1, count, t, st =>
    if t ≤ tFinal then .ok (st, count)
    else
      match annealStep fexp r4 g (stream count).1 (stream count).2 t st with
      | .error e => .error e
      | .ok (st2, accepted) =>
        annealLoop fexp r4 g scale tFinal stream fuel (count + 1)
          (if accepted then t * scale else t) st2

/-- The annealing stage of `compute` (lines 514-574): the initial random
orientation `initOrientation` (drawn before the loop) is committed together
with its tensor and score — the score without any NaN check — and then the
loop runs from `t_initial` with the 10000-iteration cap. -/
def computeAnneal (fexp : ℚ → ℚ) (r4 g : Tensor81) (initOrientation : Quat)
    (stream : ℕ → Quat × ℚ) (scale tInitial tFinal : ℚ) :
    Except String (AnnealState × ℕ) :=
  let m0 := calcCubaticTensor r4 initOrientation
  annealLoop fexp r4 g scale tFinal stream 10000 0 tInitial
    ⟨initOrientation, m0, calcCubaticOrderParameter g m0⟩

/-- `CubaticOrderParameter::compute` (lines 485-596): tensor assembly
followed by the annealing stage against the assembled global tensor.
Returns the retained (global tensor, particle rows) and the annealer's
result. -/
def computeFull (r4 : Tensor81) (qs : List Quat) (initOrientation : Quat)
    (stream : ℕ → Quat × ℚ) (fexp : ℚ → ℚ) (scale tInitial tFinal : ℚ) :
    (Tensor81 × List Tensor81) × Except String (AnnealState × ℕ) :=
  let a := assembleTensors r4 qs
  (a, computeAnneal fexp r4 a.1 initOrientation stream scale tInitial tFinal)

/-- Consistency of a retained state with a global tensor: the stored score
is the score function of the stored cubatic tensor against `g`. -/
def Consistent (g : Tensor81) (st : AnnealState) : Prop :=
  st.cubaticOrderParameter = calcCubaticOrderParameter g st.cubaticTensor

/-! ### Concrete inputs used by witnesses and counterexamples -/
/-- Constant proposal stream: identity perturbation, test draw 0. -/
def wStream : ℕ → Quat × ℚ := fun _ => (idQuat, 0)

/-- Stand-in for `expf` in runs whose only evaluated point is 0
(`expf 0 = 1`). -/
def wFexp : ℚ → ℚ := fun _ => 1

/-- The cubatic tensor of the identity orientation with zero generator:
`2·(outer4 e₀ + outer4 e₁ + outer4 e₂)`. -/
def wG : Tensor81 := calcCubaticTensor tZero idQuat

/-- A retained state with score 0. -/
def c7St : AnnealState := ⟨idQuat, tZero, SFloat.val 0⟩

/-- The state committed by a greedy acceptance from `c7St` under identity
perturbation, generator `tZero` and global tensor `wG`. -/
def wCommit : AnnealState :=
  ⟨qmul idQuat c7St.cubaticOrientation,
   calcCubaticTensor tZero (qmul idQuat c7St.cubaticOrientation),
   calcCubaticOrderParameter wG
     (calcCubaticTensor tZero (qmul idQuat c7St.cubaticOrientation))⟩

/-- Generator equal to the identity cubatic sum `2·Σ outer4(eᵢ)` — the
caller-supplied `R4` of the spec's Scenario A — which makes the identity
orientation's cubatic tensor vanish. -/
def cR4 : Tensor81 := calcCubaticTensor tZero idQuat

/-- The global tensor `compute` assembles from one identity-oriented
particle with generator `cR4` (it is pointwise zero). -/
def cG : Tensor81 := (assembleTensors cR4 [idQuat]).1

/-- The perturbation quaternion `1 + i`, whose cubatic tensor against `cR4`
is nonzero. -/
def cP : Quat := ⟨1, 1, 0, 0⟩

/-- Constant proposal stream with perturbation `cP` and test draw 0. -/
def cStream : ℕ → Quat × ℚ := fun _ => (cP, 0)

/-- The state `compute` commits before its loop on the `cR4` input: its
score is NaN (`‖M*‖² = 0`). -/
def cStNan : AnnealState := ⟨idQuat, calcCubaticTensor cR4 idQuat, SFloat.nan⟩

/-- A global tensor equal to half the identity cubatic tensor, so the
identity candidate scores `1 − (1/2 − 1)² = 3/4`. -/
def c9G : Tensor81 := fun n => (1/2) * wG n

/-- Stand-in for `expf` whose only evaluated point is `−1/4`
(`expf (−1/4) ≈ 0.7788`, here the rational `0.7788`). -/
def c9Fexp : ℚ → ℚ := fun _ => 7788 / 10000

/-- A retained state holding the maximal score 1. -/
def c9St : AnnealState := ⟨idQuat, calcCubaticTensor tZero idQuat, SFloat.val 1⟩

/-- Constant proposal stream with identity perturbation and test draw
`0.8`, which exceeds the Boltzmann factor `0.7788` and forces rejection. -/
def wRejStream : ℕ → Quat × ℚ := fun _ => (idQuat, 4/5)

/-! ### PMFXYZ pair binning (`PMFXYZ.cc`)

Both kernels (`ComputePMFTWithoutCellList`, lines 156-242, and
`ComputePMFTWithCellList`, lines 295-396) run the same per-pair body on the
wrapped displacement; `processPair` is that body.  The `float`-to-`unsigned`
truncation of a floored value (lines 225-232 / 377-384) sends any negative
floor to a value at least 2³¹, which the `< nbins` bound rejects; it is
modelled as the signed floor with the bounds check `0 ≤ b ∧ b < nbins`, the
equivalent semantics the spec's §9 notes mandate. -/
/-- The grid fields of `PMFXYZ`: half-extents, steps, bin counts. -/
structure Grid where
  maxX : ℚ
  maxY : ℚ
  maxZ : ℚ
  dX : ℚ
  dY : ℚ
  dZ : ℚ
  nbinsX : ℕ
  nbinsY : ℕ
  nbinsZ : ℕ

/-- The per-pair body shared by both kernels, on the wrapped displacement
`delta` (lines 189-238): the per-axis `< 1e−6` self-check, the two
rotations, the shift by the half-extents, the floored bins scaled by the
precomputed inverse steps, and the guarded histogram increment at
`z·ny·nx + y·nx + x`. -/
def processPair (g : Grid) (q qe : Quat) (delta : Vec3) (hist : ℕ → ℕ) :
    ℕ → ℕ :=
  if delta.x * delta.x < 1/1000000 ∧ delta.y * delta.y < 1/1000000 ∧
      delta.z * delta.z < 1/1000000 then
    hist
  else
    let v := rotate qe (rotate (conj q) delta)
    let bx : ℤ := ⌊(v.x + g.maxX) * (1 / g.dX)⌋
    let b2 : ℤ := ⌊(v.y + g.maxY) * (1 / g.dY)⌋
    let bz : ℤ := ⌊(v.z + g.maxZ) * (1 / g.dZ)⌋
    if 0 ≤ bx ∧ bx < (g.nbinsX : ℤ) ∧ 0 ≤ b2 ∧ b2 < (g.nbinsY : ℤ) ∧
        0 ≤ bz ∧ bz < (g.nbinsZ : ℤ) then
      Function.update hist
        (bz.toNat * g.nbinsY * g.nbinsX + b2.toNat * g.nbinsX + bx.toNat)
        (hist (bz.toNat * g.nbinsY * g.nbinsX + b2.toNat * g.nbinsX
          + bx.toNat) + 1)
    else hist

/-- `ComputePMFTWithoutCellList::operator()` (lines 156-242): the direct
O(Nref·Np) double loop; each target `pt` contributes through the shared
pair body on `wrap(ref − pt)`.  `wrap` abstracts `Box::wrap`. -/
def computePMFTWithoutCellList (g : Grid) (wrap : Vec3 → Vec3)
    (refs : List (Vec3 × Quat × Quat)) (pts : List Vec3)
    (hist : ℕ → ℕ) : ℕ → ℕ :=
  refs.foldl
    (fun h r =>
      pts.foldl
        (fun h2 pt =>
          processPair g r.2.1 r.2.2
            (wrap ⟨r.1.x - pt.x, r.1.y - pt.y, r.1.z - pt.z⟩) h2)
        h)
    hist

/-- `ComputePMFTWithCellList::operator()` (lines 295-396): same pair body,
but per reference only the targets whose indices the opaque cell list
returns (`neighbors r` abstracts the `getCellNeighbors`/`itercell`
traversal for the cell of `r`). -/
def computePMFTWithCellList (g : Grid) (wrap : Vec3 → Vec3)
    (refs : List (Vec3 × Quat × Quat)) (pts : List Vec3)
    (neighbors : Vec3 → List ℕ) (hist : ℕ → ℕ) : ℕ → ℕ :=
  refs.foldl
    (fun h r =>
      ((neighbors r.1).filterMap (fun j => pts[j]?)).foldl
        (fun h2 pt =>
          processPair g r.2.1 r.2.2
            (wrap ⟨r.1.x - pt.x, r.1.y - pt.y, r.1.z - pt.z⟩) h2)
        h)
    hist

/-- The coincidence check of lines 189-196. -/
def skipPair (d : Vec3) : Prop :=
  d.x * d.x < 1/1000000 ∧ d.y * d.y < 1/1000000 ∧ d.z * d.z < 1/1000000

/-- The body-frame vector `rotate(q_extra, rotate(conj(q_ref), Δ))` of
lines 211-213. -/
def bodyFrame (q qe : Quat) (d : Vec3) : Vec3 :=
  rotate qe (rotate (conj q) d)

/-- Per-axis bin index `⌊(v + max)/d⌋` (lines 215-222). -/
def binIndex (maxA dA v : ℚ) : ℤ := ⌊(v + maxA) / dA⌋

/-- The three bin indices of a pair. -/
def pairBins (g : Grid) (q qe : Quat) (d : Vec3) : ℤ × ℤ × ℤ :=
  (binIndex g.maxX g.dX (bodyFrame q qe d).x,
   binIndex g.maxY g.dY (bodyFrame q qe d).y,
   binIndex g.maxZ g.dZ (bodyFrame q qe d).z)

/-- The guarded range condition of line 235: every index in
`[0, nbins_a)`. -/
def binsInRange (g : Grid) (b : ℤ × ℤ × ℤ) : Prop :=
  0 ≤ b.1 ∧ b.1 < (g.nbinsX : ℤ) ∧ 0 ≤ b.2.1 ∧ b.2.1 < (g.nbinsY : ℤ) ∧
    0 ≤ b.2.2 ∧ b.2.2 < (g.nbinsZ : ℤ)

instance (d : Vec3) : Decidable (skipPair d) := by
  unfold skipPair
  infer_instance

instance (g : Grid) (b : ℤ × ℤ × ℤ) : Decidable (binsInRange g b) := by
  unfold binsInRange
  infer_instance

/-- C4: `calcCubaticTensor` returns
`2·(outer4(u₀) + outer4(u₁) + outer4(u₂)) − R4` with `uᵢ = rotate(Ω, eᵢ)`,
for every orientation, generator and tensor index. -/
theorem calcCubaticTensor_formula (r4 : Tensor81) (om : Quat) (k : Fin 81) :
    calcCubaticTensor r4 om k =
      2 * (tensorProduct (rotate om ⟨1, 0, 0⟩) k
            + tensorProduct (rotate om ⟨0, 1, 0⟩) k
            + tensorProduct (rotate om ⟨0, 0, 1⟩) k)
        - r4 k := by
  simp only [calcCubaticTensor, basisVectors, List.foldl_cons, List.foldl_nil,
    tensorSub, tensorMult, tensorAdd, tZero]
  ring

/-- C5 counterexample: with `t_initial = t_final = 1` (and `scale = 1/2`)
the claim's condition `t_initial ≤ t_final` holds, so the claim predicts a
`ConfigError`, yet the constructor's strict comparison accepts the
arguments. -/
theorem cubaticCtor_boundary_accepted :
    cubaticCtor 1 1 (1/2) = Except.ok () ∧ (1 : ℚ) ≤ 1 := by
  constructor
  · unfold cubaticCtor
    norm_num
  · norm_num

/-- C5 (amended): construction fails exactly when `t_initial < t_final`, or
`t_final < 1e−6`, or `scale ∉ [0,1]` (all comparisons strict, as in the
source); equivalently it succeeds exactly when `t_final ≤ t_initial`,
`1e−6 ≤ t_final` and `scale ∈ [0,1]`. -/
theorem cubaticCtor_ok_iff (tInitial tFinal scale : ℚ) :
    cubaticCtor tInitial tFinal scale = Except.ok () ↔
      (tFinal ≤ tInitial ∧ 1 / 1000000 ≤ tFinal ∧ scale ≤ 1 ∧ 0 ≤ scale) := by
  constructor
  · intro h
    unfold cubaticCtor at h
    split_ifs at h with h1 h2 h3
    push_neg at h3
    exact ⟨not_lt.mp h1, not_lt.mp h2, h3.1, h3.2⟩
  · rintro ⟨hti, htf, hs1, hs0⟩
    unfold cubaticCtor
    rw [if_neg (not_lt.mpr hti), if_neg (not_lt.mpr htf),
      if_neg (by push_neg; exact ⟨hs1, hs0⟩ :
        ¬ (scale > 1 ∨ scale < 0))]

/-- C6 counterexample: with grid step `dx = 0` (non-positive) and otherwise
valid arguments, the claim predicts a `ConfigError`, yet the constructor
only rejects strictly negative steps and accepts these arguments. -/
theorem pmfxyzCtor_zero_step_accepted :
    pmfxyzCtor 10 10 10 false 1 1 1 0 (1/2) (1/2) = Except.ok ()
      ∧ ¬ (0 : ℚ) < 0 := by
  constructor
  · unfold pmfxyzCtor
    norm_num
  · norm_num

set_option maxHeartbeats 1600000 in
/-- C6 (amended): construction fails exactly when some grid step is
*negative*, some step exceeds its half-extent, or a half-extent exceeds half
the box edge on an active axis; otherwise it succeeds.  (A negative
half-extent is subsumed: it forces either a negative step or a step
exceeding the half-extent.) -/
theorem pmfxyzCtor_ok_iff (lx ly lz : ℚ) (is2d : Bool)
    (maxX maxY maxZ dx dy dz : ℚ) :
    pmfxyzCtor lx ly lz is2d maxX maxY maxZ dx dy dz = Except.ok () ↔
      (0 ≤ dx ∧ 0 ≤ dy ∧ 0 ≤ dz ∧ dx ≤ maxX ∧ dy ≤ maxY ∧ dz ≤ maxZ ∧
        maxX ≤ lx / 2 ∧ maxY ≤ ly / 2 ∧ (is2d = false → maxZ ≤ lz / 2)) := by
  constructor
  · intro h
    unfold pmfxyzCtor at h
    split_ifs at h with h1 h2 h3 h4 h5 h6 h7 h8 h9 h10 h11
    push_neg at h10
    refine ⟨not_lt.mp h1, not_lt.mp h2, not_lt.mp h3, not_lt.mp h7,
      not_lt.mp h8, not_lt.mp h9, h10.1, h10.2, fun h2d => ?_⟩
    by_contra hc
    exact h11 ⟨not_le.mp hc, h2d⟩
  · rintro ⟨hdx, hdy, hdz, hx, hy, hz, hbx, hby, hbz⟩
    unfold pmfxyzCtor
    have hmx : ¬ maxX < 0 := not_lt.mpr (le_trans hdx hx)
    have hmy : ¬ maxY < 0 := not_lt.mpr (le_trans hdy hy)
    have hmz : ¬ maxZ < 0 := not_lt.mpr (le_trans hdz hz)
    have hb : ¬ (maxX > lx / 2 ∨ maxY > ly / 2) := by
      push_neg
      exact ⟨hbx, hby⟩
    have hz2 : ¬ (maxZ > lz / 2 ∧ is2d = false) := by
      rintro ⟨hgt, h2d⟩
      exact absurd (hbz h2d) (not_le.mpr hgt)
    rw [if_neg (not_lt.mpr hdx), if_neg (not_lt.mpr hdy),
      if_neg (not_lt.mpr hdz), if_neg hmx, if_neg hmy, if_neg hmz,
      if_neg (not_lt.mpr hx), if_neg (not_lt.mpr hy), if_neg (not_lt.mpr hz),
      if_neg hb, if_neg hz2]

/-- The per-particle row computed by `ComputeParticleTensor` equals
`2·Σⱼ outer4(rotate(q, eⱼ))` at every tensor index. -/
theorem particleTensorRow_eq (q : Quat) (k : Fin 81) :
    particleTensorRow q k =
      2 * ((basisVectors.map (fun e => tensorProduct (rotate q e) k)).sum) := by
  simp only [particleTensorRow, basisVectors, List.foldl_cons, List.foldl_nil,
    List.map_cons, List.map_nil, List.sum_cons, List.sum_nil,
    tensorMult, tensorAdd, tZero]
  ring

/-- C2: after the tensor-assembly stage of `compute`, the retained global
tensor at every index `k` is the mean over particles of the pre-subtraction
rows `2·Σⱼ outer4(rotate(qᵢ, eⱼ))` minus `R4[k]`, and the retained particle
rows are those same rows with `R4` subtracted in place. -/
theorem assembleTensors_spec (r4 : Tensor81) (qs : List Quat) :
    (∀ k, (assembleTensors r4 qs).1 k =
        (1 / (qs.length : ℚ)) *
          ((qs.map (fun q =>
            2 * ((basisVectors.map (fun e => tensorProduct (rotate q e) k)).sum))).sum)
          - r4 k)
    ∧ (assembleTensors r4 qs).2 =
        qs.map (fun q => fun k =>
          2 * ((basisVectors.map (fun e => tensorProduct (rotate q e) k)).sum)
            - r4 k) := by
  constructor
  · intro k
    simp only [assembleTensors, tensorSub, computeGlobalTensor, List.map_map,
      List.length_map, Function.comp_def, particleTensorRow_eq]
    ring
  · simp only [assembleTensors, List.map_map]
    congr 1
    funext q
    funext k
    simp only [Function.comp_apply, tensorSub, particleTensorRow_eq]

/-- The source's NaN test `x != x` holds exactly at NaN. -/
theorem sfNe_self_iff (x : SFloat) : sfNe x x = true ↔ x = SFloat.nan := by
  cases x <;> simp [sfNe]

/-- Case analysis of one loop iteration: an `ok` result is either a
rejection, which returns the retained state unchanged, or an acceptance,
which commits the proposal's orientation, its cubatic tensor and the score
computed from that tensor — a score the NaN guard has already passed. -/
theorem annealStep_ok_cases (fexp : ℚ → ℚ) (r4 g : Tensor81) (p : Quat)
    (test t : ℚ) (st st2 : AnnealState) (b : Bool)
    (h : annealStep fexp r4 g p test t st = .ok (st2, b)) :
    (b = false ∧ st2 = st)
    ∨ (b = true
        ∧ st2 = ⟨qmul p st.cubaticOrientation,
                  calcCubaticTensor r4 (qmul p st.cubaticOrientation),
                  calcCubaticOrderParameter g
                    (calcCubaticTensor r4 (qmul p st.cubaticOrientation))⟩
        ∧ calcCubaticOrderParameter g
            (calcCubaticTensor r4 (qmul p st.cubaticOrientation))
            ≠ SFloat.nan) := by
  simp only [annealStep] at h
  split_ifs at h with h1 h2 h3
  · simp only [Except.ok.injEq, Prod.mk.injEq] at h
    refine Or.inr ⟨h.2.symm, h.1.symm, ?_⟩
    intro hnan
    exact h1 ((sfNe_self_iff _).mpr hnan)
  · simp only [Except.ok.injEq, Prod.mk.injEq] at h
    refine Or.inr ⟨h.2.symm, h.1.symm, ?_⟩
    intro hnan
    exact h1 ((sfNe_self_iff _).mpr hnan)
  · simp only [Except.ok.injEq, Prod.mk.injEq] at h
    exact Or.inl ⟨h.2.symm, h.1.symm⟩

/-- The loop iteration throws exactly when the candidate score is NaN
(the `new_order_parameter != new_order_parameter` guard, lines 547-551). -/
theorem annealStep_error_iff (fexp : ℚ → ℚ) (r4 g : Tensor81) (p : Quat)
    (test t : ℚ) (st : AnnealState) :
    annealStep fexp r4 g p test t st = .error "received negative value"
      ↔ calcCubaticOrderParameter g
          (calcCubaticTensor r4 (qmul p st.cubaticOrientation))
          = SFloat.nan := by
  simp only [annealStep]
  split_ifs with h1 h2 h3
  · exact iff_of_true rfl ((sfNe_self_iff _).mp h1)
  · exact iff_of_false (by simp) (fun hn => h1 ((sfNe_self_iff _).mpr hn))
  · exact iff_of_false (by simp) (fun hn => h1 ((sfNe_self_iff _).mpr hn))
  · exact iff_of_false (by simp) (fun hn => h1 ((sfNe_self_iff _).mpr hn))

/-- Unfolding of one guarded loop iteration when the temperature is still
above `t_final`. -/
theorem annealLoop_succ (fexp : ℚ → ℚ) (r4 g : Tensor81) (scale tFinal : ℚ)
    (stream : ℕ → Quat × ℚ) (fuel count : ℕ) (t : ℚ) (st : AnnealState)
    (ht : ¬ t ≤ tFinal) :
    annealLoop fexp r4 g scale tFinal stream (fuel + 1) count t st =
      match annealStep fexp r4 g (stream count).1 (stream count).2 t st with
      | .error e => .error e
      | .ok (st2, accepted) =>
        annealLoop fexp r4 g scale tFinal stream fuel (count + 1)
          (if accepted then t * scale else t) st2 := by
  rw [annealLoop, if_neg ht]

/-- An `ok` run of the loop started in a consistent state ends in a
consistent state. -/
theorem annealLoop_consistent (fexp : ℚ → ℚ) (r4 g : Tensor81)
    (scale tFinal : ℚ) (stream : ℕ → Quat × ℚ) :
    ∀ (fuel count : ℕ) (t : ℚ) (st : AnnealState) (stF : AnnealState) (cF : ℕ),
      Consistent g st →
      annealLoop fexp r4 g scale tFinal stream fuel count t st = .ok (stF, cF) →
      Consistent g stF := by
  intro fuel
  induction fuel with
  | zero =>
    intro count t st stF cF hc h
    rw [annealLoop] at h
    simp only [Except.ok.injEq, Prod.mk.injEq] at h
    exact h.1 ▸ hc
  | succ fuel ih =>
    intro count t st stF cF hc h
    rw [annealLoop] at h
    by_cases ht : t ≤ tFinal
    · rw [if_pos ht] at h
      simp only [Except.ok.injEq, Prod.mk.injEq] at h
      exact h.1 ▸ hc
    · rw [if_neg ht] at h
      rcases hstep : annealStep fexp r4 g (stream count).1 (stream count).2 t st
        with e | ⟨st2, accepted⟩
      · rw [hstep] at h
        exact Except.noConfusion h
      · rw [hstep] at h
        rcases annealStep_ok_cases fexp r4 g (stream count).1 (stream count).2
            t st st2 accepted hstep with ⟨_, hrej⟩ | ⟨_, hcommit, _⟩
        · exact ih (count + 1) _ st2 stF cF (hrej ▸ hc) h
        · exact ih (count + 1) _ st2 stF cF (by rw [hcommit]; rfl) h

/-- C1: consistency of the retained `(orientation, tensor, score)` state.
Every `ok` result of a step preserves consistency, every commit
re-establishes it outright, and a completed `compute` call leaves the
retained score equal to `1 − ‖G − M*‖²/‖M*‖²` for the retained cubatic
tensor `M*` and the retained global tensor `G`. -/
theorem compute_retains_consistency :
    (∀ (fexp : ℚ → ℚ) (r4 g : Tensor81) (p : Quat) (test t : ℚ)
        (st st2 : AnnealState) (b : Bool),
      annealStep fexp r4 g p test t st = .ok (st2, b) →
      Consistent g st → Consistent g st2)
    ∧ (∀ (fexp : ℚ → ℚ) (r4 g : Tensor81) (p : Quat) (test t : ℚ)
        (st st2 : AnnealState),
      annealStep fexp r4 g p test t st = .ok (st2, true) →
      Consistent g st2)
    ∧ (∀ (r4 : Tensor81) (qs : List Quat) (q0 : Quat)
        (stream : ℕ → Quat × ℚ) (fexp : ℚ → ℚ) (scale tI tF : ℚ)
        (stF : AnnealState) (c : ℕ),
      (computeFull r4 qs q0 stream fexp scale tI tF).2 = .ok (stF, c) →
      Consistent (computeFull r4 qs q0 stream fexp scale tI tF).1.1 stF) := by
  have hstep : ∀ (fexp : ℚ → ℚ) (r4 g : Tensor81) (p : Quat) (test t : ℚ)
      (st st2 : AnnealState) (b : Bool),
      annealStep fexp r4 g p test t st = .ok (st2, b) →
      Consistent g st → Consistent g st2 := by
    intro fexp r4 g p test t st st2 b h hc
    rcases annealStep_ok_cases fexp r4 g p test t st st2 b h with
      ⟨_, hrej⟩ | ⟨_, hcommit, _⟩
    · exact hrej ▸ hc
    · rw [hcommit]
      rfl
  refine ⟨hstep, ?_, ?_⟩
  · intro fexp r4 g p test t st st2 h
    rcases annealStep_ok_cases fexp r4 g p test t st st2 true h with
      ⟨hb, _⟩ | ⟨_, hcommit, _⟩
    · exact Bool.noConfusion hb
    · rw [hcommit]
      rfl
  · intro r4 qs q0 stream fexp scale tI tF stF c h
    have h2 : annealLoop fexp r4 (assembleTensors r4 qs).1 scale tF stream
        10000 0 tI
        ⟨q0, calcCubaticTensor r4 q0,
          calcCubaticOrderParameter (assembleTensors r4 qs).1
            (calcCubaticTensor r4 q0)⟩ = .ok (stF, c) := h
    exact annealLoop_consistent fexp r4 (assembleTensors r4 qs).1 scale tF
      stream 10000 0 tI
      ⟨q0, calcCubaticTensor r4 q0,
        calcCubaticOrderParameter (assembleTensors r4 qs).1
          (calcCubaticTensor r4 q0)⟩ stF c rfl h2

/-! ### Score evaluation lemmas -/
/-- A tensor with a nonzero entry has nonzero Frobenius self inner
product. -/
theorem tensorDot_self_ne_zero (t : Tensor81) (k : Fin 81) (h : t k ≠ 0) :
    tensorDot t t ≠ 0 := by
  have hpos : 0 < t k * t k := mul_self_pos.mpr h
  have hmem : t k * t k ∈ (List.finRange 81).map (fun n => t n * t n) :=
    List.mem_map_of_mem _ (List.mem_finRange k)
  have hnn : ∀ x ∈ (List.finRange 81).map (fun n => t n * t n), (0 : ℚ) ≤ x := by
    intro x hx
    rcases List.mem_map.mp hx with ⟨n, _, rfl⟩
    exact mul_self_nonneg (t n)
  have hle := List.single_le_sum hnn _ hmem
  unfold tensorDot
  exact ne_of_gt (lt_of_lt_of_le hpos hle)

/-- A pointwise-zero tensor has zero self inner product. -/
theorem tensorDot_self_eq_zero (t : Tensor81) (h : ∀ k, t k = 0) :
    tensorDot t t = 0 := by
  unfold tensorDot
  apply List.sum_eq_zero
  intro x hx
  rcases List.mem_map.mp hx with ⟨n, _, rfl⟩
  rw [h n, mul_zero]

/-- Score of a global tensor proportional to the cubatic tensor:
`G = c·M` pointwise with `‖M‖² ≠ 0` gives `s = 1 − (c−1)²`. -/
theorem calcScore_of_proportional (g m : Tensor81) (c : ℚ)
    (hg : ∀ k, g k = c * m k) (hd : tensorDot m m ≠ 0) :
    calcCubaticOrderParameter g m = SFloat.val (1 - (c - 1) * (c - 1)) := by
  have hdiff : tensorDot (tensorSub g m) (tensorSub g m)
      = ((c - 1) * (c - 1)) * tensorDot m m := by
    simp only [tensorDot, tensorSub]
    rw [← List.sum_map_mul_left]
    exact congrArg List.sum
      (List.map_congr_left (fun n _ => by rw [hg n]; ring))
  unfold calcCubaticOrderParameter
  rw [if_neg hd, hdiff, mul_div_assoc, div_self hd, mul_one]

/-- Score against a pointwise-zero cubatic tensor is NaN (`‖M‖² = 0`). -/
theorem calcScore_nan (g m : Tensor81) (h : ∀ k, m k = 0) :
    calcCubaticOrderParameter g m = SFloat.nan := by
  unfold calcCubaticOrderParameter
  rw [if_pos (tensorDot_self_eq_zero m h)]

/-! ### Outcome helpers for one loop iteration -/
/-- A true IEEE `>` forces both operands non-NaN, hence `x != x` fails. -/
theorem sfGt_true_sfNe_false {a b : SFloat} (h : sfGt a b = true) :
    sfNe a a = false := by
  cases a <;> cases b <;> simp_all [sfGt, sfNe]

/-- A candidate score strictly above the retained one (IEEE `>`) commits
through the greedy branch. -/
theorem annealStep_commits (fexp : ℚ → ℚ) (r4 g : Tensor81) (p : Quat)
    (test t : ℚ) (st : AnnealState)
    (h : sfGt (calcCubaticOrderParameter g
        (calcCubaticTensor r4 (qmul p st.cubaticOrientation)))
        st.cubaticOrderParameter = true) :
    annealStep fexp r4 g p test t st
      = .ok (⟨qmul p st.cubaticOrientation,
              calcCubaticTensor r4 (qmul p st.cubaticOrientation),
              calcCubaticOrderParameter g
                (calcCubaticTensor r4 (qmul p st.cubaticOrientation))⟩,
            true) := by
  have hne := sfGt_true_sfNe_false h
  simp only [annealStep]
  rw [if_neg (by rw [hne]; exact Bool.false_ne_true), if_pos h]

/-- A candidate that fails the greedy test but passes the Boltzmann test
commits, installing the (possibly lower) candidate score. -/
theorem annealStep_boltzmann_commits (fexp : ℚ → ℚ) (r4 g : Tensor81)
    (p : Quat) (test t : ℚ) (st : AnnealState) (s2 : ℚ)
    (hs : calcCubaticOrderParameter g
        (calcCubaticTensor r4 (qmul p st.cubaticOrientation)) = SFloat.val s2)
    (hgt : sfGt (SFloat.val s2) st.cubaticOrderParameter = false)
    (hge : sfGe (sfBoltzmann fexp st.cubaticOrderParameter (SFloat.val s2) t)
        (SFloat.val test) = true) :
    annealStep fexp r4 g p test t st
      = .ok (⟨qmul p st.cubaticOrientation,
              calcCubaticTensor r4 (qmul p st.cubaticOrientation),
              SFloat.val s2⟩, true) := by
  simp only [annealStep, hs]
  rw [if_neg (by simp [sfNe]), if_neg (by rw [hgt]; exact Bool.false_ne_true),
    if_pos hge]

/-- A candidate that fails both the greedy and the Boltzmann tests is
rejected: the retained state is unchanged. -/
theorem annealStep_rejects (fexp : ℚ → ℚ) (r4 g : Tensor81) (p : Quat)
    (test t : ℚ) (st : AnnealState) (s2 : ℚ)
    (hs : calcCubaticOrderParameter g
        (calcCubaticTensor r4 (qmul p st.cubaticOrientation)) = SFloat.val s2)
    (hgt : sfGt (SFloat.val s2) st.cubaticOrderParameter = false)
    (hge : sfGe (sfBoltzmann fexp st.cubaticOrderParameter (SFloat.val s2) t)
        (SFloat.val test) = false) :
    annealStep fexp r4 g p test t st = .ok (st, false) := by
  simp only [annealStep, hs]
  rw [if_neg (by simp [sfNe]), if_neg (by rw [hgt]; exact Bool.false_ne_true),
    if_neg (by rw [hge]; exact Bool.false_ne_true)]

/-- Composing the identity quaternion with itself gives the identity. -/
theorem qmul_id_id : qmul idQuat idQuat = idQuat := by
  norm_num [qmul, idQuat]

/-- Right-composing `cP` with the identity gives `cP`. -/
theorem qmul_cP_id : qmul cP idQuat = cP := by
  norm_num [qmul, cP, idQuat]

/-- Entry `(0,0,0,0)` of `wG` is 2. -/
theorem wG_entry_zero : wG (⟨0, by norm_num⟩ : Fin 81) = 2 := by
  norm_num [wG, calcCubaticTensor, basisVectors, tensorSub, tensorMult,
    tensorAdd, tZero, tensorProduct, vcomp, rotate, qmul, conj, idQuat]

/-- `‖wG‖² ≠ 0`. -/
theorem tensorDot_wG : tensorDot wG wG ≠ 0 :=
  tensorDot_self_ne_zero wG ⟨0, by norm_num⟩ (by rw [wG_entry_zero]; norm_num)

/-- The cubatic tensor of the identity orientation against generator `cR4`
vanishes pointwise. -/
theorem calcCubaticTensor_cR4_id (k : Fin 81) :
    calcCubaticTensor cR4 idQuat k = 0 := by
  simp only [cR4, calcCubaticTensor, basisVectors, List.foldl_cons,
    List.foldl_nil, tensorSub, tensorMult, tensorAdd, tZero]
  ring

/-- The assembled global tensor `cG` vanishes pointwise. -/
theorem cG_eq_zero (k : Fin 81) : cG k = 0 := by
  simp only [cG, cR4, assembleTensors, computeGlobalTensor, particleTensorRow,
    calcCubaticTensor, basisVectors, List.map_cons, List.map_nil,
    List.foldl_cons, List.foldl_nil, List.sum_cons, List.sum_nil,
    List.length_cons, List.length_nil, tensorSub, tensorMult, tensorAdd,
    tZero]
  norm_num
  ring

/-- Entry `(0,0,0,0)` of the `cP` candidate's cubatic tensor is 30. -/
theorem cP_tensor_entry :
    calcCubaticTensor cR4 cP (⟨0, by norm_num⟩ : Fin 81) = 30 := by
  norm_num [cR4, cP, calcCubaticTensor, basisVectors, tensorSub, tensorMult,
    tensorAdd, tZero, tensorProduct, vcomp, rotate, qmul, conj, idQuat]

/-- The identity candidate against global tensor `wG` scores 1. -/
theorem score_wG_id :
    calcCubaticOrderParameter wG (calcCubaticTensor tZero (qmul idQuat idQuat))
      = SFloat.val 1 := by
  rw [qmul_id_id]
  have h := calcScore_of_proportional wG (calcCubaticTensor tZero idQuat) 1
    (fun k => (one_mul _).symm) tensorDot_wG
  rw [h]
  norm_num

/-- The `cP` candidate against the zero global tensor `cG` scores 0. -/
theorem score_cG_cP :
    calcCubaticOrderParameter cG (calcCubaticTensor cR4 (qmul cP idQuat))
      = SFloat.val 0 := by
  rw [qmul_cP_id]
  have hd : tensorDot (calcCubaticTensor cR4 cP) (calcCubaticTensor cR4 cP) ≠ 0 :=
    tensorDot_self_ne_zero _ ⟨0, by norm_num⟩ (by rw [cP_tensor_entry]; norm_num)
  have h := calcScore_of_proportional cG (calcCubaticTensor cR4 cP) 0
    (fun k => by rw [cG_eq_zero k]; ring) hd
  rw [h]
  norm_num

/-- The identity candidate against the halved global tensor `c9G` scores
`3/4`. -/
theorem score_c9G_id :
    calcCubaticOrderParameter c9G (calcCubaticTensor tZero (qmul idQuat idQuat))
      = SFloat.val (3/4) := by
  rw [qmul_id_id]
  have h := calcScore_of_proportional c9G (calcCubaticTensor tZero idQuat)
    (1/2) (fun k => rfl) tensorDot_wG
  rw [h]
  norm_num

/-- The identity candidate against `cG` with generator `cR4` scores NaN. -/
theorem score_cG_id_nan :
    calcCubaticOrderParameter cG (calcCubaticTensor cR4 (qmul idQuat idQuat))
      = SFloat.nan := by
  rw [qmul_id_id]
  exact calcScore_nan cG _ calcCubaticTensor_cR4_id

/-- From the NaN-scored state every `cP` proposal is rejected. -/
theorem c8_step :
    annealStep wFexp cR4 cG cP 0 1 cStNan = .ok (cStNan, false) := by
  apply annealStep_rejects wFexp cR4 cG cP 0 1 cStNan 0
  · exact score_cG_cP
  · rfl
  · rfl

/-- From the score-1 state `c9St` the identity proposal is rejected when
the test draw `0.8` exceeds the Boltzmann factor `0.7788`. -/
theorem c9_reject_step :
    annealStep c9Fexp tZero c9G idQuat (4/5) 1 c9St = .ok (c9St, false) := by
  apply annealStep_rejects c9Fexp tZero c9G idQuat (4/5) 1 c9St (3/4)
  · exact score_c9G_id
  · show sfGt (SFloat.val (3/4)) (SFloat.val 1) = false
    simp only [sfGt, decide_eq_false_iff_not, not_lt]
    norm_num
  · show sfGe (sfBoltzmann c9Fexp (SFloat.val 1) (SFloat.val (3/4)) 1)
        (SFloat.val (4/5)) = false
    simp only [sfBoltzmann, sfGe, c9Fexp, decide_eq_false_iff_not, not_le]
    norm_num

/-- The executed iteration count of an `ok` loop run is bounded by the
entry count plus the remaining fuel. -/
theorem annealLoop_count_le (fexp : ℚ → ℚ) (r4 g : Tensor81)
    (scale tFinal : ℚ) (stream : ℕ → Quat × ℚ) :
    ∀ (fuel count : ℕ) (t : ℚ) (st stF : AnnealState) (cF : ℕ),
      annealLoop fexp r4 g scale tFinal stream fuel count t st = .ok (stF, cF) →
      cF ≤ count + fuel := by
  intro fuel
  induction fuel with
  | zero =>
    intro count t st stF cF h
    rw [annealLoop] at h
    simp only [Except.ok.injEq, Prod.mk.injEq] at h
    omega
  | succ fuel ih =>
    intro count t st stF cF h
    rw [annealLoop] at h
    by_cases ht : t ≤ tFinal
    · rw [if_pos ht] at h
      simp only [Except.ok.injEq, Prod.mk.injEq] at h
      omega
    · rw [if_neg ht] at h
      rcases hstep : annealStep fexp r4 g (stream count).1 (stream count).2 t st
        with e | ⟨st2, accepted⟩ <;> rw [hstep] at h
      · exact Except.noConfusion h
      · have := ih (count + 1) _ st2 stF cF h
        omega

/-- The loop returns immediately once the temperature is at or below
`t_final`. -/
theorem annealLoop_exit (fexp : ℚ → ℚ) (r4 g : Tensor81) (scale tFinal : ℚ)
    (stream : ℕ → Quat × ℚ) (fuel count : ℕ) (t : ℚ) (st : AnnealState)
    (ht : t ≤ tFinal) :
    annealLoop fexp r4 g scale tFinal stream fuel count t st = .ok (st, count) := by
  cases fuel with
  | zero => rw [annealLoop]
  | succ fuel => rw [annealLoop, if_pos ht]

/-- C7: the annealing loop always terminates under its two exit conditions,
and the temperature advances by `scale` exactly on accepted iterations:
(1) an `ok` run executes at most `fuel` further iterations (with
`fuel = 10000` at entry this is the step cap); (2) the loop stops once
`t_current ≤ t_final`; (3) an accepted iteration recurses with the counter
incremented and the temperature multiplied by `scale`; (4) a rejected
iteration leaves the retained state and the temperature unchanged,
incrementing only the counter. -/
theorem anneal_loop_termination :
    (∀ (fexp : ℚ → ℚ) (r4 g : Tensor81) (scale tFinal : ℚ)
        (stream : ℕ → Quat × ℚ) (fuel count : ℕ) (t : ℚ) (st stF : AnnealState)
        (cF : ℕ),
      annealLoop fexp r4 g scale tFinal stream fuel count t st = .ok (stF, cF) →
      cF ≤ count + fuel)
    ∧ (∀ (fexp : ℚ → ℚ) (r4 g : Tensor81) (scale tFinal : ℚ)
        (stream : ℕ → Quat × ℚ) (fuel count : ℕ) (t : ℚ) (st : AnnealState),
      t ≤ tFinal →
      annealLoop fexp r4 g scale tFinal stream fuel count t st = .ok (st, count))
    ∧ (∀ (fexp : ℚ → ℚ) (r4 g : Tensor81) (scale tFinal : ℚ)
        (stream : ℕ → Quat × ℚ) (fuel count : ℕ) (t : ℚ) (st st2 : AnnealState),
      ¬ t ≤ tFinal →
      annealStep fexp r4 g (stream count).1 (stream count).2 t st
        = .ok (st2, true) →
      annealLoop fexp r4 g scale tFinal stream (fuel + 1) count t st
        = annealLoop fexp r4 g scale tFinal stream fuel (count + 1)
            (t * scale) st2)
    ∧ (∀ (fexp : ℚ → ℚ) (r4 g : Tensor81) (scale tFinal : ℚ)
        (stream : ℕ → Quat × ℚ) (fuel count : ℕ) (t : ℚ) (st st2 : AnnealState),
      ¬ t ≤ tFinal →
      annealStep fexp r4 g (stream count).1 (stream count).2 t st
        = .ok (st2, false) →
      st2 = st ∧
      annealLoop fexp r4 g scale tFinal stream (fuel + 1) count t st
        = annealLoop fexp r4 g scale tFinal stream fuel (count + 1) t st) := by
  refine ⟨annealLoop_count_le, annealLoop_exit, ?_, ?_⟩
  · intro fexp r4 g scale tFinal stream fuel count t st st2 ht hstep
    rw [annealLoop_succ fexp r4 g scale tFinal stream fuel count t st ht, hstep]
    rfl
  · intro fexp r4 g scale tFinal stream fuel count t st st2 ht hstep
    have hst : st2 = st := by
      rcases annealStep_ok_cases fexp r4 g (stream count).1 (stream count).2
          t st st2 false hstep with ⟨_, hrej⟩ | ⟨hb, _, _⟩
      · exact hrej
      · exact Bool.noConfusion hb
    refine ⟨hst, ?_⟩
    rw [annealLoop_succ fexp r4 g scale tFinal stream fuel count t st ht,
      hstep, hst]
    rfl

/-- Witness for C7: the conjuncts of `anneal_loop_termination` applied at
concrete inputs — an exhausted-fuel run, an immediate exit, a greedily
accepted step, and a Boltzmann-rejected step. -/
theorem anneal_loop_termination_witness :
    ((5 : ℕ) ≤ 5 + 0)
    ∧ annealLoop wFexp tZero tZero 1 2 wStream 3 0 1 c7St = .ok (c7St, 0)
    ∧ annealLoop wFexp tZero wG (1/2) (1/2) wStream 1 0 1 c7St
        = annealLoop wFexp tZero wG (1/2) (1/2) wStream 0 1 (1 * (1/2)) wCommit
    ∧ (c9St = c9St
        ∧ annealLoop c9Fexp tZero c9G (1/2) (1/4) wRejStream 1 0 1 c9St
            = annealLoop c9Fexp tZero c9G (1/2) (1/4) wRejStream 0 1 1 c9St) := by
  have hgt : sfGt (calcCubaticOrderParameter wG
      (calcCubaticTensor tZero (qmul idQuat c7St.cubaticOrientation)))
      c7St.cubaticOrderParameter = true := by
    show sfGt (calcCubaticOrderParameter wG
      (calcCubaticTensor tZero (qmul idQuat idQuat))) (SFloat.val 0) = true
    rw [score_wG_id]
    simp only [sfGt, decide_eq_true_eq]
    norm_num
  refine ⟨anneal_loop_termination.1 wFexp tZero tZero 1 2 wStream 0 5 1 c7St
      c7St 5 rfl,
    anneal_loop_termination.2.1 wFexp tZero tZero 1 2 wStream 3 0 1 c7St
      (by norm_num),
    anneal_loop_termination.2.2.1 wFexp tZero wG (1/2) (1/2) wStream 0 0 1
      c7St wCommit (by norm_num)
      (annealStep_commits wFexp tZero wG idQuat 0 1 c7St hgt),
    anneal_loop_termination.2.2.2 c9Fexp tZero c9G (1/2) (1/4) wRejStream 0 0 1
      c9St c9St (by norm_num) c9_reject_step⟩

/-- C8 (amended): inside the annealing loop a NaN candidate score throws
exactly when it occurs, before any commit, so no loop iteration ever
commits a NaN score — an `ok` step either keeps the previous retained score
or installs a non-NaN one.  (The *initial* score committed before the loop
is not checked; see the counterexample.) -/
theorem anneal_nan_causes_error :
    (∀ (fexp : ℚ → ℚ) (r4 g : Tensor81) (p : Quat) (test t : ℚ)
        (st : AnnealState),
      annealStep fexp r4 g p test t st = .error "received negative value"
        ↔ calcCubaticOrderParameter g
            (calcCubaticTensor r4 (qmul p st.cubaticOrientation))
            = SFloat.nan)
    ∧ (∀ (fexp : ℚ → ℚ) (r4 g : Tensor81) (p : Quat) (test t : ℚ)
        (st st2 : AnnealState) (b : Bool),
      annealStep fexp r4 g p test t st = .ok (st2, b) →
      st2.cubaticOrderParameter = st.cubaticOrderParameter
        ∨ st2.cubaticOrderParameter ≠ SFloat.nan) := by
  refine ⟨annealStep_error_iff, ?_⟩
  intro fexp r4 g p test t st st2 b h
  rcases annealStep_ok_cases fexp r4 g p test t st st2 b h with
    ⟨_, hrej⟩ | ⟨_, hcommit, hne⟩
  · exact Or.inl (by rw [hrej])
  · exact Or.inr (by rw [hcommit]; exact hne)

/-- Witness for C8 (amended): a concrete NaN candidate makes the step
throw, and a concrete rejected step keeps its previous score. -/
theorem anneal_nan_causes_error_witness :
    annealStep wFexp cR4 cG idQuat 0 1 cStNan = .error "received negative value"
    ∧ (c9St.cubaticOrderParameter = c9St.cubaticOrderParameter
        ∨ c9St.cubaticOrderParameter ≠ SFloat.nan) :=
  ⟨(anneal_nan_causes_error.1 wFexp cR4 cG idQuat 0 1 cStNan).mpr
      score_cG_id_nan,
   anneal_nan_causes_error.2 c9Fexp tZero c9G idQuat (4/5) 1 c9St c9St false
     c9_reject_step⟩

/-- On the `cR4` input the loop, started in the NaN-scored initial state,
rejects every proposal (NaN compares false in the greedy test and poisons
the Boltzmann factor) and returns that state unchanged after exhausting
its fuel. -/
theorem c8nan_loop (fuel : ℕ) : ∀ count : ℕ,
    annealLoop wFexp cR4 cG (1/2) (1/2) cStream fuel count 1 cStNan
      = .ok (cStNan, count + fuel) := by
  induction fuel with
  | zero =>
    intro count
    rw [annealLoop]
    rfl
  | succ fuel ih =>
    intro count
    rw [annealLoop_succ wFexp cR4 cG (1/2) (1/2) cStream fuel count 1 cStNan
      (by norm_num)]
    have hstep : annealStep wFexp cR4 cG (cStream count).1 (cStream count).2 1
        cStNan = .ok (cStNan, false) := c8_step
    rw [hstep]
    show annealLoop wFexp cR4 cG (1/2) (1/2) cStream fuel (count + 1) 1 cStNan
      = _
    rw [ih (count + 1)]
    have harith : count + 1 + fuel = count + (fuel + 1) := by omega
    rw [harith]

/-- C8 counterexample: on the Scenario-A generator `cR4` the initial random
orientation's score is NaN, yet `compute` neither throws nor rechecks it —
the call returns `ok` after all 10000 iterations with the NaN score
retained, refuting both "every NaN score … causes the call to fail with
NumericError" and "no NaN score is ever committed as the retained
score". -/
theorem compute_commits_nan_score :
    (computeFull cR4 [idQuat] idQuat cStream wFexp (1/2) 1 (1/2)).2
      = .ok (cStNan, 10000)
    ∧ cStNan.cubaticOrderParameter = SFloat.nan := by
  constructor
  · have hinit : (⟨idQuat, calcCubaticTensor cR4 idQuat,
        calcCubaticOrderParameter cG (calcCubaticTensor cR4 idQuat)⟩ :
          AnnealState) = cStNan := by
      rw [calcScore_nan cG (calcCubaticTensor cR4 idQuat)
        calcCubaticTensor_cR4_id]
      rfl
    show annealLoop wFexp cR4 cG (1/2) (1/2) cStream 10000 0 1
        ⟨idQuat, calcCubaticTensor cR4 idQuat,
          calcCubaticOrderParameter cG (calcCubaticTensor cR4 idQuat)⟩
      = .ok (cStNan, 10000)
    rw [hinit]
    exact c8nan_loop 10000 0
  · rfl

/-- C9 (amended): across iterations accepted through the *greedy* branch —
candidate score strictly above the retained score under the IEEE `>` test —
the retained score increases: such a step commits the candidate score
unconditionally.  Boltzmann-branch acceptances may instead lower the
retained score (see the counterexample). -/
theorem greedy_acceptance_raises_score (fexp : ℚ → ℚ) (r4 g : Tensor81)
    (p : Quat) (test t : ℚ) (st : AnnealState)
    (h : sfGt (calcCubaticOrderParameter g
        (calcCubaticTensor r4 (qmul p st.cubaticOrientation)))
        st.cubaticOrderParameter = true) :
    annealStep fexp r4 g p test t st
      = .ok (⟨qmul p st.cubaticOrientation,
              calcCubaticTensor r4 (qmul p st.cubaticOrientation),
              calcCubaticOrderParameter g
                (calcCubaticTensor r4 (qmul p st.cubaticOrientation))⟩,
            true) :=
  annealStep_commits fexp r4 g p test t st h

/-- Witness for C9 (amended): a concrete greedy acceptance — candidate
score 1 over retained score 0 — commits the higher score. -/
theorem greedy_acceptance_raises_score_witness :
    annealStep wFexp tZero wG idQuat (1/2) 1 c7St = .ok (wCommit, true) :=
  greedy_acceptance_raises_score wFexp tZero wG idQuat (1/2) 1 c7St
    (by show sfGt (calcCubaticOrderParameter wG
          (calcCubaticTensor tZero (qmul idQuat idQuat))) (SFloat.val 0) = true
        rw [score_wG_id]
        simp only [sfGt, decide_eq_true_eq]
        norm_num)

/-- C9 counterexample: a Boltzmann-branch acceptance that *lowers* the
retained score — retained score 1, candidate score 3/4, temperature 1,
Boltzmann factor 0.7788 against test draw 1/2, so the proposal is accepted
and committed although `3/4 < 1`, refuting "the newly retained score is
greater than or equal to the score retained before that acceptance". -/
theorem boltzmann_accepts_lower_score :
    annealStep c9Fexp tZero c9G idQuat (1/2) 1 c9St
      = .ok (⟨qmul idQuat c9St.cubaticOrientation,
              calcCubaticTensor tZero (qmul idQuat c9St.cubaticOrientation),
              SFloat.val (3/4)⟩, true)
    ∧ c9St.cubaticOrderParameter = SFloat.val 1
    ∧ ((3 : ℚ)/4 < 1) := by
  refine ⟨?_, rfl, by norm_num⟩
  apply annealStep_boltzmann_commits c9Fexp tZero c9G idQuat (1/2) 1 c9St (3/4)
  · exact score_c9G_id
  · show sfGt (SFloat.val (3/4)) (SFloat.val 1) = false
    simp only [sfGt, decide_eq_false_iff_not, not_lt]
    norm_num
  · show sfGe (sfBoltzmann c9Fexp (SFloat.val 1) (SFloat.val (3/4)) 1)
        (SFloat.val (1/2)) = true
    simp only [sfBoltzmann, sfGe, c9Fexp, decide_eq_true_eq]
    norm_num

/-- Witness for C1: a `compute` call that exits its loop immediately
(`t_initial = 1 ≤ t_final = 2`) returns `ok`, and the claim theorem yields
consistency of the retained state with the retained global tensor. -/
theorem compute_retains_consistency_witness :
    (computeFull tZero [] idQuat wStream wFexp (1/2) 1 2).2
      = .ok (⟨idQuat, calcCubaticTensor tZero idQuat,
          calcCubaticOrderParameter (assembleTensors tZero []).1
            (calcCubaticTensor tZero idQuat)⟩, 0)
    ∧ Consistent (computeFull tZero [] idQuat wStream wFexp (1/2) 1 2).1.1
        ⟨idQuat, calcCubaticTensor tZero idQuat,
          calcCubaticOrderParameter (assembleTensors tZero []).1
            (calcCubaticTensor tZero idQuat)⟩ := by
  have h : (computeFull tZero [] idQuat wStream wFexp (1/2) 1 2).2
      = .ok (⟨idQuat, calcCubaticTensor tZero idQuat,
          calcCubaticOrderParameter (assembleTensors tZero []).1
            (calcCubaticTensor tZero idQuat)⟩, 0) := by
    show annealLoop wFexp tZero (assembleTensors tZero []).1 (1/2) 2 wStream
        10000 0 1
        ⟨idQuat, calcCubaticTensor tZero idQuat,
          calcCubaticOrderParameter (assembleTensors tZero []).1
            (calcCubaticTensor tZero idQuat)⟩ = _
    exact annealLoop_exit wFexp tZero (assembleTensors tZero []).1 (1/2) 2
      wStream 10000 0 1 _ (by norm_num)
  exact ⟨h, compute_retains_consistency.2.2 tZero [] idQuat wStream wFexp
    (1/2) 1 2 _ 0 h⟩

/-- A histogram increment touches exactly its own cell. -/
theorem update_incr_apply (hist : ℕ → ℕ) (idx n : ℕ) :
    Function.update hist idx (hist idx + 1) n
      = hist n + (if n = idx then 1 else 0) := by
  rcases eq_or_ne n idx with h | h
  · subst h
    rw [Function.update_same]
    simp
  · rw [Function.update_noteq h, if_neg h, Nat.add_zero]

/-- C3: each reference-target pair processed by either kernel leaves the
histogram unchanged when all three components of the wrapped displacement
have squared magnitude below `1e−6`; otherwise the pair increments exactly
the cell `bz·nx·ny + by·nx + bx` of the body-frame bin triple when all
three indices lie within `[0, nbins_a)`, and is silently dropped (histogram
unchanged) when any index falls outside. -/
theorem pmft_pair_binning (g : Grid) (q qe : Quat) (d : Vec3)
    (hist : ℕ → ℕ) (n : ℕ) :
    processPair g q qe d hist n =
      hist n +
        (if ¬ skipPair d ∧ binsInRange g (pairBins g q qe d)
            ∧ n = (pairBins g q qe d).2.2.toNat * g.nbinsX * g.nbinsY
                + (pairBins g q qe d).2.1.toNat * g.nbinsX
                + (pairBins g q qe d).1.toNat
         then 1 else 0) := by
  simp only [processPair, mul_one_div]
  by_cases hskip : d.x * d.x < 1/1000000 ∧ d.y * d.y < 1/1000000 ∧
      d.z * d.z < 1/1000000
  · rw [if_pos hskip, if_neg (fun hc => hc.1 hskip), Nat.add_zero]
  · rw [if_neg hskip]
    by_cases hrange :
        0 ≤ ⌊((rotate qe (rotate (conj q) d)).x + g.maxX) / g.dX⌋ ∧
        ⌊((rotate qe (rotate (conj q) d)).x + g.maxX) / g.dX⌋ < (g.nbinsX : ℤ) ∧
        0 ≤ ⌊((rotate qe (rotate (conj q) d)).y + g.maxY) / g.dY⌋ ∧
        ⌊((rotate qe (rotate (conj q) d)).y + g.maxY) / g.dY⌋ < (g.nbinsY : ℤ) ∧
        0 ≤ ⌊((rotate qe (rotate (conj q) d)).z + g.maxZ) / g.dZ⌋ ∧
        ⌊((rotate qe (rotate (conj q) d)).z + g.maxZ) / g.dZ⌋ < (g.nbinsZ : ℤ)
    · rw [if_pos hrange, update_incr_apply]
      congr 1
      have hIDX : (pairBins g q qe d).2.2.toNat * g.nbinsX * g.nbinsY
          + (pairBins g q qe d).2.1.toNat * g.nbinsX
          + (pairBins g q qe d).1.toNat
          = ⌊((rotate qe (rotate (conj q) d)).z + g.maxZ) / g.dZ⌋.toNat
              * g.nbinsY * g.nbinsX
            + ⌊((rotate qe (rotate (conj q) d)).y + g.maxY) / g.dY⌋.toNat
              * g.nbinsX
            + ⌊((rotate qe (rotate (conj q) d)).x + g.maxX) / g.dX⌋.toNat := by
        simp only [pairBins, binIndex, bodyFrame]
        ring
      have hiff : (¬ skipPair d ∧ binsInRange g (pairBins g q qe d)
            ∧ n = (pairBins g q qe d).2.2.toNat * g.nbinsX * g.nbinsY
                + (pairBins g q qe d).2.1.toNat * g.nbinsX
                + (pairBins g q qe d).1.toNat)
          ↔ n = ⌊((rotate qe (rotate (conj q) d)).z + g.maxZ) / g.dZ⌋.toNat
              * g.nbinsY * g.nbinsX
            + ⌊((rotate qe (rotate (conj q) d)).y + g.maxY) / g.dY⌋.toNat
              * g.nbinsX
            + ⌊((rotate qe (rotate (conj q) d)).x + g.maxX) / g.dX⌋.toNat := by
        constructor
        · intro hc
          rw [hc.2.2, hIDX]
        · intro hn
          exact ⟨hskip, hrange, by rw [hIDX]; exact hn⟩
      exact (if_congr hiff rfl rfl).symm
    · rw [if_neg hrange, if_neg (fun hc => hrange hc.2.1), Nat.add_zero]

/-- C10: when `max_a` is not an integer multiple of `d_a` (with positive
step and half-extent), the grid of `nbins_a = 2·⌊max_a/d_a⌋` bins covers
only `[−max_a, nbins_a·d_a − max_a)`: the gap up to `max_a` is nonempty,
and any pair whose body-frame coordinate lands in it gets a bin index
`≥ nbins_a`, fails the bounds check and is silently dropped, leaving the
histogram unchanged. -/
theorem pmft_declared_extent_dropped (maxA dA v : ℚ) (hd : 0 < dA)
    (hm : 0 < maxA) (hnd : ¬ ∃ m : ℤ, maxA = (m : ℚ) * dA) :
    ((nbinsOf maxA dA : ℚ) * dA - maxA < maxA)
    ∧ ((nbinsOf maxA dA : ℚ) * dA - maxA ≤ v → v ≤ maxA →
        nbinsOf maxA dA ≤ binIndex maxA dA v
        ∧ ∀ (g : Grid) (q qe : Quat) (d : Vec3) (hist : ℕ → ℕ),
            g.maxX = maxA → g.dX = dA →
            g.nbinsX = (nbinsOf maxA dA).toNat →
            (bodyFrame q qe d).x = v →
            processPair g q qe d hist = hist) := by
  have hfloor : (⌊maxA / dA⌋ : ℚ) < maxA / dA := by
    rcases lt_or_eq_of_le (Int.floor_le (maxA / dA)) with h | h
    · exact h
    · exact absurd ⟨⌊maxA / dA⌋,
        by rw [h]; exact (div_mul_cancel₀ maxA (ne_of_gt hd)).symm⟩ hnd
  have hnb0 : 0 ≤ nbinsOf maxA dA := by
    unfold nbinsOf
    have : (0 : ℤ) ≤ ⌊maxA / dA⌋ :=
      Int.floor_nonneg.mpr (le_of_lt (div_pos hm hd))
    omega
  constructor
  · unfold nbinsOf
    push_cast
    have h2 : (⌊maxA / dA⌋ : ℚ) * dA < maxA := by
      have := (mul_lt_mul_of_pos_right hfloor hd)
      rwa [div_mul_cancel₀ _ (ne_of_gt hd)] at this
    nlinarith
  · intro hv1 hv2
    have hble : nbinsOf maxA dA ≤ binIndex maxA dA v := by
      unfold binIndex
      rw [Int.le_floor]
      rw [le_div_iff₀ hd]
      linarith
    refine ⟨hble, ?_⟩
    intro g q qe d hist hgx hgd hgn hbf
    unfold processPair
    by_cases hskip : d.x * d.x < 1/1000000 ∧ d.y * d.y < 1/1000000 ∧
        d.z * d.z < 1/1000000
    · rw [if_pos hskip]
    · rw [if_neg hskip, if_neg ?_]
      rintro ⟨-, hlt, -⟩
      have hbx : ⌊((rotate qe (rotate (conj q) d)).x + g.maxX) * (1 / g.dX)⌋
          = binIndex maxA dA v := by
        unfold binIndex
        rw [mul_one_div]
        have h1 : (rotate qe (rotate (conj q) d)).x = v := hbf
        rw [h1, hgx, hgd]
      rw [hbx, hgn, Int.toNat_of_nonneg hnb0] at hlt
      exact absurd hlt (not_lt.mpr hble)

/-- Witness for C10: grid step `2/3` on half-extent 1 gives 2 bins covering
only `[−1, 1/3)`; the body-frame coordinate `1/2` lies inside the declared
half-extent but maps to bin 2 and the pair is dropped. -/
theorem pmft_declared_extent_dropped_witness :
    ((nbinsOf 1 (2/3) : ℚ) * (2/3) - 1 < 1)
    ∧ nbinsOf 1 (2/3) ≤ binIndex 1 (2/3) (1/2)
    ∧ processPair ⟨1, 1, 1, 2/3, 2/3, 2/3, 2, 2, 2⟩ idQuat idQuat
        ⟨1/2, 0, 0⟩ (fun _ => 0) = (fun _ => 0) := by
  have hnd : ¬ ∃ m : ℤ, (1 : ℚ) = (m : ℚ) * (2/3) := by
    rintro ⟨m, hm⟩
    have h3 : (3 : ℚ) = 2 * (m : ℚ) := by linarith
    have h4 : (3 : ℤ) = 2 * m := by exact_mod_cast h3
    omega
  have h := pmft_declared_extent_dropped 1 (2/3) (1/2) (by norm_num)
    (by norm_num) hnd
  have hfl : ⌊(1 : ℚ) / (2/3)⌋ = 1 := by
    rw [show (1 : ℚ) / (2/3) = 3/2 by norm_num]
    exact Int.floor_eq_iff.mpr ⟨by norm_num, by norm_num⟩
  have hnb : nbinsOf 1 (2/3) = 2 := by
    unfold nbinsOf
    rw [hfl]
    norm_num
  have h2 := h.2 (by rw [hnb]; norm_num) (by norm_num)
  refine ⟨h.1, h2.1, ?_⟩
  refine h2.2 ⟨1, 1, 1, 2/3, 2/3, 2/3, 2, 2, 2⟩ idQuat idQuat ⟨1/2, 0, 0⟩
    (fun _ => 0) rfl rfl (by rw [hnb]; rfl) ?_
  norm_num [bodyFrame, rotate, conj, qmul, idQuat]

end Freud
